import Mathlib

/-!
# Verification of the `cancer128` ACGAN training script

A shallow embedding of `src/acgan/cancer128/cancer_acgan.py`.  The script is
host-side orchestration around a deep-learning framework: it loads a directory
dataset, builds a generator and a discriminator, and runs an adversarial
training loop with soft labels, sample reweighting, loss-history bookkeeping
and periodic checkpointing.

Environment inputs of the script (directory listings, image decoding, the
random permutations drawn by `sklearn.utils.shuffle`, the random noise and
labels, and the loss values returned by the framework) are parameters of the
embedded definitions.  Framework calls (`train_on_batch`, `evaluate`,
`predict`, `save_weights`, …) are modelled as events of a trace where the claim
is about call order, and by their documented input/output behaviour where the
claim is about the data handed to them.
-/

namespace Acgan

/-- `num_classes = 2` (module-level constant of the source). -/
def num_classes : Nat := 2

/-- `images_dir = 'images128'` (module-level constant of the source). -/
def images_dir : String := "images128"

/-! ## Data loading: `get_dir_data` and `get_data` -/

/-- `get_dir_data(path, clz)` from the source.  The directory listing
`os.listdir(path)` and the image decoder `np.array(Image.open(fname))` are
environment inputs, passed as `listdir` and `openImage`.  The source builds
`x` with one loaded image per listed file and `y = np.ones((len(x),)) * clz`. -/
def get_dir_data {Img : Type} (openImage : String → Img)
    (path : String) (listdir : List String) (clz : ℚ) : List Img × List ℚ :=
  let x := (listdir.map (fun f => path ++ "/" ++ f)).map openImage
  (x, (List.replicate x.length (1 : ℚ)).map (fun v => v * clz))

/-- `sklearn.utils.shuffle` draws one random permutation and applies it
consistently to every array passed in a single call.  The permutation is the
index list `perm`; an index outside the array cannot occur for a true
permutation and is dropped. -/
def npShuffle {α : Type} (perm : List Nat) (x : List α) : List α :=
  perm.filterMap (fun i => x[i]?)

/-- The quadruple returned by `get_data()`. -/
structure Dataset (Img : Type) where
  x_train : List Img
  y_train : List ℚ
  x_test : List Img
  y_test : List ℚ

/-- `get_data()` from the source.  Directory listings, the image decoder and
the two permutations drawn by the two `shuffle` calls are environment inputs.
The source binds the shuffled training labels to the fresh name `ytrain` and
returns the pre-shuffle `y_train`, while the test pair is rebound to
`x_test, y_test`. -/
def get_data {Img : Type} (openImage : String → Img)
    (melTrainFiles melTestFiles otherTrainFiles otherTestFiles : List String)
    (trainPerm testPerm : List Nat) : Dataset Img :=
  let mtr := get_dir_data openImage ("./" ++ images_dir ++ "/train/melanoma") melTrainFiles 1
  let mte := get_dir_data openImage ("./" ++ images_dir ++ "/validation/melanoma") melTestFiles 1
  let otr := get_dir_data openImage ("./" ++ images_dir ++ "/train/outros") otherTrainFiles 0
  let ote := get_dir_data openImage ("./" ++ images_dir ++ "/validation/outros") otherTestFiles 0
  let x_train := mtr.1 ++ otr.1
  let y_train := mtr.2 ++ otr.2
  let x_test := mte.1 ++ ote.1
  let y_test := mte.2 ++ ote.2
  let x_train' := npShuffle trainPerm x_train
  let _ytrain := npShuffle trainPerm y_train
  let x_test' := npShuffle testPerm x_test
  let y_test' := npShuffle testPerm y_test
  ⟨x_train', y_train, x_test', y_test'⟩

/-! ## Per-batch targets and sample weights -/

/-- `np.ones(n)` as a rational list. -/
def npOnes (n : Nat) : List ℚ := List.replicate n 1

/-- `np.zeros(n)` as a rational list. -/
def npZeros (n : Nat) : List ℚ := List.replicate n 0

/-- `soft_zero = 0` (source line `soft_zero, soft_one = 0, 0.95`). -/
def soft_zero : ℚ := 0

/-- `soft_one = 0.95`. -/
def soft_one : ℚ := 95 / 100

/-- `y = np.array([soft_one] * batch_size + [soft_zero] * batch_size)`: the
generation-output targets of a discriminator batch. -/
def discGenerationTargets (bs : Nat) : List ℚ :=
  List.replicate bs soft_one ++ List.replicate bs soft_zero

/-- `trick = np.ones(2 * batch_size) * soft_one`: the generation targets of the
combined (generator) update. -/
def trick (bs : Nat) : List ℚ := (npOnes (2 * bs)).map (fun v => v * soft_one)

/-- `disc_sample_weight = [np.ones(2 * batch_size),
np.concatenate((np.ones(batch_size) * 2, np.zeros(batch_size)))]`: per-output
sample weights of the discriminator update (generation output, auxiliary
output). -/
def disc_sample_weight (bs : Nat) : List ℚ × List ℚ :=
  (npOnes (2 * bs), (npOnes bs).map (fun v => v * 2) ++ npZeros bs)

/-! ## Batching -/

/-- `num_batches = int(x_train.shape[0] / batch_size)`: floor division for the
nonnegative sizes involved. -/
def num_batches (num_train bs : Nat) : Nat := num_train / bs

/-- `image_batch = x_train[index * batch_size:(index + 1) * batch_size]`:
a Python slice of length at most `batch_size`. -/
def image_batch {α : Type} (x : List α) (bs index : Nat) : List α :=
  (x.drop (index * bs)).take bs

/-- The batches visited by `for index in range(n)`, concatenated in loop
order. -/
def batchesConcat {α : Type} (x : List α) (bs : Nat) : Nat → List α
  | 0 => []
  | n + 1 => batchesConcat x bs n ++ image_batch x bs n

/-! ## The framework-call trace of one epoch -/

/-- The framework calls and file writes issued by the `__main__` loop, in
source order.  File-writing events carry the epoch number that appears in the
written file's name. -/
inductive Ev : Type
  | genPredict
  | discTrainOnBatch
  | combTrainOnBatch
  | discEvaluate
  | combEvaluate
  | discPredict
  | saveGeneratorWeights (epoch : Nat)
  | saveDiscriminatorWeights (epoch : Nat)
  | dumpHistoryPickle
  | savePlotImage (epoch : Nat)
  deriving DecidableEq

/-- The framework calls of one iteration of `for index in range(num_batches)`:
`generator.predict`, then `discriminator.train_on_batch`, then
`combined.train_on_batch`, in source order. -/
def batchTrace : List Ev := [.genPredict, .discTrainOnBatch, .combTrainOnBatch]

/-- The framework calls of the per-epoch evaluation section, in source order:
`generator.predict` (test fakes), `discriminator.evaluate`,
`combined.evaluate`, `discriminator.predict` (accuracy). -/
def evalTrace : List Ev := [.genPredict, .discEvaluate, .combEvaluate, .discPredict]

/-- The checkpoint block guarded by `if epoch % 50 != 0: continue`: generator
weights, discriminator weights, the pickled histories, a `generator.predict`
for the display grid, and the saved plot. -/
def checkpointTrace (epoch : Nat) : List Ev :=
  if epoch % 50 ≠ 0 then []
  else [.saveGeneratorWeights epoch, .saveDiscriminatorWeights epoch,
        .dumpHistoryPickle, .genPredict, .savePlotImage epoch]

/-- `n` iterations of a loop body, in iteration order. -/
def loopTrace (body : List Ev) : Nat → List Ev
  | 0 => []
  | n + 1 => body ++ loopTrace body n

/-- The full trace of one epoch: `num_batches` batch iterations, then the
evaluation section, then the (conditional) checkpoint block. -/
def epochTrace (nb epoch : Nat) : List Ev :=
  loopTrace batchTrace nb ++ evalTrace ++ checkpointTrace epoch

/-- The events that update model weights. -/
def isTrainUpdate : Ev → Bool
  | .discTrainOnBatch => true
  | .combTrainOnBatch => true
  | _ => false

/-- The events that write a file into the run directory. -/
def isFileWrite : Ev → Bool
  | .saveGeneratorWeights _ => true
  | .saveDiscriminatorWeights _ => true
  | .dumpHistoryPickle => true
  | .savePlotImage _ => true
  | _ => false

/-! ## Loss-history bookkeeping -/

/-- A `train_on_batch`/`evaluate` result: the three metrics
`[loss, generation_loss, auxiliary_loss]`. -/
abbrev LossV := Fin 3 → ℚ

/-- `np.mean(np.array(l), axis=0)`: the componentwise arithmetic mean. -/
def npMeanV (l : List LossV) : LossV :=
  fun i => (l.map (fun v => v i)).sum / l.length

/-- The five lists held by `train_history` and `test_history`. -/
structure Histories where
  trainGen : List LossV
  trainDisc : List LossV
  testGen : List LossV
  testDisc : List LossV
  testAcc : List ℚ

/-- `defaultdict(list)` twice: all five lists start empty. -/
def emptyHistories : Histories := ⟨[], [], [], [], []⟩

/-- The framework outputs consumed by one epoch: the per-batch losses returned
by the two `train_on_batch` calls, the two `evaluate` results, and the computed
accuracy. -/
structure EpochEnv where
  discLoss : Nat → LossV
  genLoss : Nat → LossV
  discTestLoss : LossV
  genTestLoss : LossV
  accuracy : ℚ

/-- One epoch's bookkeeping: `epoch_disc_loss`/`epoch_gen_loss` collect one
entry per batch; the epoch report appends the batch means to the train
histories and the evaluate results and accuracy to the test history. -/
def epochStep (nb : Nat) (env : EpochEnv) (h : Histories) : Histories :=
  let epoch_disc_loss := (List.range nb).map env.discLoss
  let epoch_gen_loss := (List.range nb).map env.genLoss
  { trainGen := h.trainGen ++ [npMeanV epoch_gen_loss]
    trainDisc := h.trainDisc ++ [npMeanV epoch_disc_loss]
    testGen := h.testGen ++ [env.genTestLoss]
    testDisc := h.testDisc ++ [env.discTestLoss]
    testAcc := h.testAcc ++ [env.accuracy] }

/-- The histories of a run after its first `e` epochs (`for epoch in
range(1, epochs + 1)`), starting from the fresh `defaultdict(list)` pair. -/
def runHistories (nb : Nat) (envs : Nat → EpochEnv) : Nat → Histories
  | 0 => emptyHistories
  | e + 1 => epochStep nb (envs (e + 1)) (runHistories nb envs e)

/-! ## Compile-time capture of the `trainable` flag -/

/-- Which weight groups a compiled model updates on `train_on_batch`.  The
framework snapshots each sub-model's `trainable` flag when the enclosing model
is compiled. -/
structure CompiledModel where
  updatesGen : Bool
  updatesDisc : Bool

/-- The mutable state of the model-building section of `__main__`. -/
structure SetupState where
  discTrainable : Bool
  discCompiled : Option CompiledModel
  combinedCompiled : Option CompiledModel

/-- The three model-building statements that matter for trainability. -/
inductive SetupStep : Type
  | compileDisc
  | setDiscTrainable (b : Bool)
  | compileCombined

/-- Statement semantics: `discriminator.compile` captures the discriminator's
current flag (the discriminator model contains no generator layers);
`combined.compile` captures the flag state of its sub-models at that moment:
the generator (trainable) and the discriminator (its current flag). -/
def runSetupStep (s : SetupState) : SetupStep → SetupState
  | .compileDisc => { s with discCompiled := some ⟨false, s.discTrainable⟩ }
  | .setDiscTrainable b => { s with discTrainable := b }
  | .compileCombined => { s with combinedCompiled := some ⟨true, s.discTrainable⟩ }

/-- The source order: `discriminator.compile(...)`, then
`discriminator.trainable = False`, then `combined.compile(...)`. -/
def scriptSetup : List SetupStep :=
  [.compileDisc, .setDiscTrainable false, .compileCombined]

/-- Models start trainable and uncompiled. -/
def initialSetup : SetupState := ⟨true, none, none⟩

/-- The setup state after the model-building section. -/
def finalSetup : SetupState := scriptSetup.foldl runSetupStep initialSetup

/-- The generator and discriminator weight vectors. -/
structure Weights (G D : Type) where
  gen : G
  disc : D

/-- `train_on_batch` on a compiled model: the optimizer computes candidate new
values for every weight, but only the groups captured as trainable at compile
time are written back. -/
def train_on_batch {G D : Type} (m : CompiledModel)
    (newGen : G) (newDisc : D) (w : Weights G D) : Weights G D :=
  ⟨if m.updatesGen then newGen else w.gen,
   if m.updatesDisc then newDisc else w.disc⟩

/-! ## The generator network (`build_generator`)

The framework layers are modelled over the reals with their learned parameters
as inputs: a layer is the documented map from parameters and input tensor to
output tensor.  Tensors are functions on `Fin`-indexed shapes, so every shape
in the claim is carried by the types. -/

/-- A length-`n` real vector. -/
abbrev Vec (n : Nat) := Fin n → ℝ

/-- A rank-3 real tensor of shape `(h, w, c)`. -/
abbrev Tensor3 (h w c : Nat) := Fin h → Fin w → Fin c → ℝ

/-- The `relu` activation. -/
def relu (x : ℝ) : ℝ := max x 0

/-- A `Dense` layer with activation `act`. -/
noncomputable def dense {i o : Nat} (W : Fin o → Fin i → ℝ) (b : Fin o → ℝ)
    (act : ℝ → ℝ) (x : Vec i) : Vec o :=
  fun j => act (∑ k, W j k * x k + b j)

/-- `Reshape((12, 12, 768))` of a flat `12 * 12 * 768` vector (row-major). -/
def reshape12 (x : Vec (12 * 12 * 768)) : Tensor3 12 12 768 :=
  fun i j c =>
    x ⟨((i : Nat) * 12 + (j : Nat)) * 768 + (c : Nat), by
      have hi := i.isLt; have hj := j.isLt; have hc := c.isLt; omega⟩

/-- Output spatial size of `Conv2DTranspose` for a square kernel: the
framework's documented rule is `inDim * stride` for `'same'` padding and
`(inDim - 1) * stride + kernel` for `'valid'`. -/
def convTransOutDim (inDim kernel stride : Nat) (same : Bool) : Nat :=
  if same then inDim * stride else (inDim - 1) * stride + kernel

/-- Pre-activation of `Conv2DTranspose`: output position `o` accumulates
kernel tap `k` against input position `i` whenever `o + pad = i * stride + k`,
where `pad` is the leading padding (`0` for `'valid'`; `(kernel - stride) / 2`
for the `'same'` layers here), plus the channel bias. -/
noncomputable def convTransPre {hi wi ci ho wo co : Nat} (kernel stride pad : Nat)
    (K : Fin kernel → Fin kernel → Fin ci → Fin co → ℝ) (b : Fin co → ℝ)
    (x : Tensor3 hi wi ci) : Tensor3 ho wo co :=
  fun oi oj oc =>
    (∑ ii : Fin hi, ∑ ij : Fin wi, ∑ ki : Fin kernel, ∑ kj : Fin kernel, ∑ ic : Fin ci,
      if (oi : Nat) + pad = (ii : Nat) * stride + (ki : Nat)
          ∧ (oj : Nat) + pad = (ij : Nat) * stride + (kj : Nat)
      then K ki kj ic oc * x ii ij ic else 0) + b oc

/-- `Conv2DTranspose` with activation `act`. -/
noncomputable def conv2DTranspose {hi wi ci ho wo co : Nat} (kernel stride pad : Nat)
    (K : Fin kernel → Fin kernel → Fin ci → Fin co → ℝ) (b : Fin co → ℝ)
    (act : ℝ → ℝ) (x : Tensor3 hi wi ci) : Tensor3 ho wo co :=
  fun oi oj oc => act (convTransPre kernel stride pad K b x oi oj oc)

/-- `BatchNormalization` in inference form: per-channel scale, shift, moving
mean and moving variance. -/
noncomputable def batchNorm {h w c : Nat} (gam bet mea vr : Fin c → ℝ) (eps : ℝ)
    (x : Tensor3 h w c) : Tensor3 h w c :=
  fun i j ch => gam ch * ((x i j ch - mea ch) / Real.sqrt (vr ch + eps)) + bet ch

/-- The learned parameters of `build_generator(latent_size)`: the class
embedding, the dense layer, and the four `Conv2DTranspose` layers with their
`BatchNormalization` parameters. -/
structure GenWeights (latent_size : Nat) where
  emb : Fin num_classes → Fin latent_size → ℝ
  denseW : Fin (12 * 12 * 768) → Fin latent_size → ℝ
  denseB : Fin (12 * 12 * 768) → ℝ
  k1 : Fin 5 → Fin 5 → Fin 768 → Fin 384 → ℝ
  b1 : Fin 384 → ℝ
  bn1g : Fin 384 → ℝ
  bn1b : Fin 384 → ℝ
  bn1m : Fin 384 → ℝ
  bn1v : Fin 384 → ℝ
  k2 : Fin 5 → Fin 5 → Fin 384 → Fin 192 → ℝ
  b2 : Fin 192 → ℝ
  bn2g : Fin 192 → ℝ
  bn2b : Fin 192 → ℝ
  bn2m : Fin 192 → ℝ
  bn2v : Fin 192 → ℝ
  k3 : Fin 5 → Fin 5 → Fin 192 → Fin 96 → ℝ
  b3 : Fin 96 → ℝ
  bn3g : Fin 96 → ℝ
  bn3b : Fin 96 → ℝ
  bn3m : Fin 96 → ℝ
  bn3v : Fin 96 → ℝ
  k4 : Fin 5 → Fin 5 → Fin 96 → Fin 3 → ℝ
  b4 : Fin 3 → ℝ
  eps : ℝ

/-- The `Sequential` cnn of `build_generator`: dense + reshape to
`(12, 12, 768)`, then `Conv2DTranspose` to `16×16×384` (`'valid'`, stride 1),
`32×32×192`, `64×64×96` (`'same'`, stride 2, batch-normalized), and finally
`128×128×3` with `tanh`. -/
noncomputable def genCnn {latent_size : Nat} (w : GenWeights latent_size)
    (h : Vec latent_size) : Tensor3 128 128 3 :=
  let d : Vec (12 * 12 * 768) := dense w.denseW w.denseB relu h
  let r : Tensor3 12 12 768 := reshape12 d
  let c1 : Tensor3 16 16 384 := conv2DTranspose 5 1 0 w.k1 w.b1 relu r
  let n1 : Tensor3 16 16 384 := batchNorm w.bn1g w.bn1b w.bn1m w.bn1v w.eps c1
  let c2 : Tensor3 32 32 192 := conv2DTranspose 5 2 1 w.k2 w.b2 relu n1
  let n2 : Tensor3 32 32 192 := batchNorm w.bn2g w.bn2b w.bn2m w.bn2v w.eps c2
  let c3 : Tensor3 64 64 96 := conv2DTranspose 5 2 1 w.k3 w.b3 relu n2
  let n3 : Tensor3 64 64 96 := batchNorm w.bn3g w.bn3b w.bn3m w.bn3v w.eps c3
  conv2DTranspose 5 2 1 w.k4 w.b4 Real.tanh n3

/-- `build_generator`: the model maps a latent vector and an integer class
label to an image; the cnn is applied to the Hadamard product of the latent
vector and the label's embedding (`layers.multiply([latent, cls])`). -/
noncomputable def build_generator {latent_size : Nat} (w : GenWeights latent_size)
    (latent : Vec latent_size) (image_class : Fin num_classes) : Tensor3 128 128 3 :=
  genCnn w (fun i => latent i * w.emb image_class i)

/-! ## Theorems -/

/-- Helper: the batches visited by the loop, concatenated, are an initial
segment of `x`. -/
theorem batchesConcat_eq_take {α : Type} (x : List α) (bs : Nat) :
    ∀ m, batchesConcat x bs m = x.take (m * bs)
  | 0 => by simp [batchesConcat]
  | m + 1 => by
    rw [batchesConcat, batchesConcat_eq_take x bs m, image_batch, Nat.succ_mul,
      List.take_add]

/-- C3: in every discriminator batch the generation targets are one-sided soft
labels: each of the `batch_size` real images gets target `0.95`, each of the
`batch_size` generated images gets target exactly `0`, and the generator update
uses target `0.95` for all `2 * batch_size` of its samples. -/
theorem one_sided_soft_labels (bs i j : Nat) (hi : i < bs) (hj : j < 2 * bs) :
    (discGenerationTargets bs)[i]? = some (95 / 100)
    ∧ (discGenerationTargets bs)[bs + i]? = some 0
    ∧ (discGenerationTargets bs).length = 2 * bs
    ∧ (trick bs).length = 2 * bs
    ∧ (trick bs)[j]? = some (95 / 100) := by
  refine ⟨?_, ?_, ?_, ?_, ?_⟩
  · have hlt : i < bs := hi
    simp [discGenerationTargets, List.getElem?_append, hlt, soft_one]
  · have hge : ¬ (bs + i < bs) := by omega
    simp [discGenerationTargets, List.getElem?_append, hge, hi, soft_zero,
      Nat.add_sub_cancel_left, List.getElem_append_right, List.getElem_replicate]
  · simp [discGenerationTargets, Nat.two_mul]
  · simp [trick, npOnes]
  · simp [trick, npOnes, hj, soft_one]

/-- Witness for `one_sided_soft_labels` at `batch_size = 2`, `i = 1`,
`j = 3`. -/
theorem one_sided_soft_labels_witness :
    1 < 2 ∧ 3 < 2 * 2 ∧
    ((discGenerationTargets 2)[1]? = some (95 / 100)
     ∧ (discGenerationTargets 2)[2 + 1]? = some 0
     ∧ (discGenerationTargets 2).length = 2 * 2
     ∧ (trick 2).length = 2 * 2
     ∧ (trick 2)[3]? = some (95 / 100)) :=
  ⟨by decide, by decide, one_sided_soft_labels 2 1 3 (by decide) (by decide)⟩

/-- C4: the discriminator sample weights give every generation-output sample
weight `1`, give auxiliary-output weight `2` to each real image and `0` to each
generated image, and the auxiliary weights sum to `2 * batch_size`. -/
theorem disc_sample_weight_preserves_sum (bs i j : Nat) (hi : i < bs) (hj : j < 2 * bs) :
    (disc_sample_weight bs).1.length = 2 * bs
    ∧ (disc_sample_weight bs).1[j]? = some 1
    ∧ (disc_sample_weight bs).2.length = 2 * bs
    ∧ (disc_sample_weight bs).2[i]? = some 2
    ∧ (disc_sample_weight bs).2[bs + i]? = some 0
    ∧ (disc_sample_weight bs).2.sum = ((2 * bs : Nat) : ℚ) := by
  refine ⟨?_, ?_, ?_, ?_, ?_, ?_⟩
  · simp [disc_sample_weight, npOnes]
  · simp [disc_sample_weight, npOnes, hj]
  · simp [disc_sample_weight, npOnes, npZeros, Nat.two_mul]
  · have hlt : i < bs := hi
    simp [disc_sample_weight, npOnes, List.getElem?_append, hlt]
  · have hge : ¬ (bs + i < bs) := by omega
    simp [disc_sample_weight, npOnes, npZeros, List.getElem?_append, hge, hi,
      Nat.add_sub_cancel_left, List.getElem_append_right, List.getElem_replicate]
  · simp [disc_sample_weight, npOnes, npZeros, List.map_replicate, List.sum_replicate]
    ring

/-- Witness for `disc_sample_weight_preserves_sum` at `batch_size = 2`,
`i = 1`, `j = 3`. -/
theorem disc_sample_weight_preserves_sum_witness :
    1 < 2 ∧ 3 < 2 * 2 ∧
    ((disc_sample_weight 2).1.length = 2 * 2
     ∧ (disc_sample_weight 2).1[3]? = some 1
     ∧ (disc_sample_weight 2).2.length = 2 * 2
     ∧ (disc_sample_weight 2).2[1]? = some 2
     ∧ (disc_sample_weight 2).2[2 + 1]? = some 0
     ∧ (disc_sample_weight 2).2.sum = ((2 * 2 : Nat) : ℚ)) :=
  ⟨by decide, by decide, disc_sample_weight_preserves_sum 2 1 3 (by decide) (by decide)⟩

/-- C10: an epoch visits exactly `num_train / batch_size` batches; batch `i` is
the slice at indices `[i * batch_size, (i + 1) * batch_size)`, of length
exactly `batch_size`; the batches concatenate to the initialmost
`num_batches * batch_size` samples, so the trailing `num_train % batch_size`
samples never enter a discriminator update. -/
theorem epoch_batching {α : Type} (x : List α) (bs : Nat) (_hb : 0 < bs) :
    (∀ i, i < num_batches x.length bs → (image_batch x bs i).length = bs)
    ∧ (∀ i k, k < bs → (image_batch x bs i)[k]? = x[i * bs + k]?)
    ∧ batchesConcat x bs (num_batches x.length bs)
        = x.take (num_batches x.length bs * bs)
    ∧ x.length - num_batches x.length bs * bs = x.length % bs := by
  refine ⟨?_, ?_, batchesConcat_eq_take x bs _, ?_⟩
  · intro i hi
    have h1 : (i + 1) * bs ≤ x.length / bs * bs :=
      Nat.mul_le_mul_right bs hi
    have h2 : x.length / bs * bs ≤ x.length := Nat.div_mul_le_self _ _
    have h3 : i * bs + bs ≤ x.length := by
      calc i * bs + bs = (i + 1) * bs := (Nat.succ_mul i bs).symm
        _ ≤ x.length / bs * bs := h1
        _ ≤ x.length := h2
    rw [image_batch, List.length_take, List.length_drop]
    exact Nat.min_eq_left (Nat.le_sub_of_add_le (by rw [Nat.add_comm]; exact h3))
  · intro i k hk
    simp [image_batch, List.getElem?_take, List.getElem?_drop, hk]
  · have h := Nat.div_add_mod x.length bs
    rw [num_batches, Nat.mul_comm]
    exact Nat.sub_eq_of_eq_add (by rw [Nat.add_comm]; exact h.symm)

/-- Witness for `epoch_batching` on the five-element list `[0, 1, 2, 3, 4]`
with `batch_size = 2`: two full batches, one trailing sample. -/
theorem epoch_batching_witness :
    0 < 2 ∧
    ((∀ i, i < num_batches ([0, 1, 2, 3, 4] : List Nat).length 2 →
        (image_batch [0, 1, 2, 3, 4] 2 i).length = 2)
     ∧ (∀ i k, k < 2 →
        (image_batch ([0, 1, 2, 3, 4] : List Nat) 2 i)[k]? = ([0, 1, 2, 3, 4] : List Nat)[i * 2 + k]?)
     ∧ batchesConcat ([0, 1, 2, 3, 4] : List Nat) 2 (num_batches ([0, 1, 2, 3, 4] : List Nat).length 2)
        = ([0, 1, 2, 3, 4] : List Nat).take (num_batches ([0, 1, 2, 3, 4] : List Nat).length 2 * 2)
     ∧ ([0, 1, 2, 3, 4] : List Nat).length
        - num_batches ([0, 1, 2, 3, 4] : List Nat).length 2 * 2
        = ([0, 1, 2, 3, 4] : List Nat).length % 2) :=
  ⟨by decide, epoch_batching [0, 1, 2, 3, 4] 2 (by decide)⟩

/-- Helper: filtering distributes over the iterations of a loop. -/
theorem filter_loopTrace (p : Ev → Bool) (body : List Ev) :
    ∀ n, (loopTrace body n).filter p = loopTrace (body.filter p) n
  | 0 => by simp [loopTrace]
  | n + 1 => by
    rw [loopTrace, List.filter_append, filter_loopTrace p body n, loopTrace]

/-- Helper: a loop over an empty body contributes nothing. -/
theorem loopTrace_nil : ∀ n, loopTrace ([] : List Ev) n = []
  | 0 => rfl
  | n + 1 => by rw [loopTrace, loopTrace_nil n]; rfl

/-- Helper: event counts over the iterations of a loop. -/
theorem count_loopTrace (a : Ev) (body : List Ev) :
    ∀ n, (loopTrace body n).count a = n * body.count a
  | 0 => by simp [loopTrace]
  | n + 1 => by
    rw [loopTrace, List.count_append, count_loopTrace a body n, Nat.succ_mul,
      Nat.add_comm]

/-- C1: each batch iteration is `generator.predict`, then exactly one
`discriminator.train_on_batch`, then exactly one `combined.train_on_batch`;
the weight updates of an epoch strictly alternate, one of each per batch, and
the epoch ends with exactly one `discriminator.evaluate` and one
`combined.evaluate`. -/
theorem training_step_sequence (nb epoch : Nat) :
    batchTrace = [Ev.genPredict, Ev.discTrainOnBatch, Ev.combTrainOnBatch]
    ∧ (epochTrace nb epoch).filter isTrainUpdate
        = loopTrace [Ev.discTrainOnBatch, Ev.combTrainOnBatch] nb
    ∧ (epochTrace nb epoch).count Ev.discTrainOnBatch = nb
    ∧ (epochTrace nb epoch).count Ev.combTrainOnBatch = nb
    ∧ (epochTrace nb epoch).count Ev.discEvaluate = 1
    ∧ (epochTrace nb epoch).count Ev.combEvaluate = 1 := by
  have hchk : ∀ a : Ev, isFileWrite a = false → a ≠ Ev.genPredict →
      (checkpointTrace epoch).count a = 0 := by
    intro a ha hg
    rw [checkpointTrace]
    split
    · rfl
    · rcases a with _ | _ | _ | _ | _ | _ | e | e | _ | e <;>
        simp_all [List.count_cons, isFileWrite]
  refine ⟨rfl, ?_, ?_, ?_, ?_, ?_⟩
  · rw [epochTrace, List.filter_append, List.filter_append,
      filter_loopTrace isTrainUpdate batchTrace nb]
    have h1 : batchTrace.filter isTrainUpdate
        = [Ev.discTrainOnBatch, Ev.combTrainOnBatch] := rfl
    have h2 : evalTrace.filter isTrainUpdate = [] := rfl
    have h3 : (checkpointTrace epoch).filter isTrainUpdate = [] := by
      rw [checkpointTrace]; split <;> rfl
    rw [h1, h2, h3, List.append_nil, List.append_nil]
  · rw [epochTrace, List.count_append, List.count_append,
      count_loopTrace Ev.discTrainOnBatch batchTrace nb,
      hchk Ev.discTrainOnBatch rfl (by simp)]
    simp [batchTrace, evalTrace]
  · rw [epochTrace, List.count_append, List.count_append,
      count_loopTrace Ev.combTrainOnBatch batchTrace nb,
      hchk Ev.combTrainOnBatch rfl (by simp)]
    simp [batchTrace, evalTrace]
  · rw [epochTrace, List.count_append, List.count_append,
      count_loopTrace Ev.discEvaluate batchTrace nb,
      hchk Ev.discEvaluate rfl (by simp)]
    simp [batchTrace, evalTrace]
  · rw [epochTrace, List.count_append, List.count_append,
      count_loopTrace Ev.combEvaluate batchTrace nb,
      hchk Ev.combEvaluate rfl (by simp)]
    simp [batchTrace, evalTrace]

/-- C5: the per-epoch file writes are exactly the generator weights, the
discriminator weights, the pickled history and the generated-image plot when
`50` divides the epoch number, and nothing otherwise. -/
theorem checkpoint_writes_iff (nb epoch : Nat) :
    ((epochTrace nb epoch).filter isFileWrite
      = if 50 ∣ epoch
        then [Ev.saveGeneratorWeights epoch, Ev.saveDiscriminatorWeights epoch,
              Ev.dumpHistoryPickle, Ev.savePlotImage epoch]
        else [])
    ∧ ((epochTrace nb epoch).filter isFileWrite ≠ [] ↔ 50 ∣ epoch) := by
  have hmain : (epochTrace nb epoch).filter isFileWrite
      = if 50 ∣ epoch
        then [Ev.saveGeneratorWeights epoch, Ev.saveDiscriminatorWeights epoch,
              Ev.dumpHistoryPickle, Ev.savePlotImage epoch]
        else [] := by
    rw [epochTrace, List.filter_append, List.filter_append,
      filter_loopTrace isFileWrite batchTrace nb]
    have h1 : batchTrace.filter isFileWrite = [] := rfl
    have h2 : evalTrace.filter isFileWrite = [] := rfl
    rw [h1, loopTrace_nil, h2, List.nil_append, List.nil_append, checkpointTrace]
    rcases Nat.decEq (epoch % 50) 0 with h | h
    · have hd : ¬ (50 ∣ epoch) := by
        rw [Nat.dvd_iff_mod_eq_zero]; exact h
      simp [h, hd]
    · have hd : 50 ∣ epoch := by
        rw [Nat.dvd_iff_mod_eq_zero]; exact h
      simp [h, hd, isFileWrite]
  refine ⟨hmain, ?_⟩
  rw [hmain]
  rcases Classical.em (50 ∣ epoch) with h | h <;> simp [h]

/-- Helper: after `E` epochs every history list has length `E`. -/
theorem runHistories_lengths (nb : Nat) (envs : Nat → EpochEnv) :
    ∀ E, (runHistories nb envs E).trainGen.length = E
      ∧ (runHistories nb envs E).trainDisc.length = E
      ∧ (runHistories nb envs E).testGen.length = E
      ∧ (runHistories nb envs E).testDisc.length = E
      ∧ (runHistories nb envs E).testAcc.length = E
  | 0 => ⟨rfl, rfl, rfl, rfl, rfl⟩
  | E + 1 => by
    obtain ⟨h1, h2, h3, h4, h5⟩ := runHistories_lengths nb envs E
    simp [runHistories, epochStep, h1, h2, h3, h4, h5]

/-- Helper: the entry appended in epoch `k + 1` sits at index `k` of every
history list, for every later epoch count. -/
theorem runHistories_getElem (nb : Nat) (envs : Nat → EpochEnv) :
    ∀ E k, k < E →
      (runHistories nb envs E).trainDisc[k]?
          = some (npMeanV ((List.range nb).map (envs (k + 1)).discLoss))
      ∧ (runHistories nb envs E).trainGen[k]?
          = some (npMeanV ((List.range nb).map (envs (k + 1)).genLoss))
      ∧ (runHistories nb envs E).testDisc[k]? = some (envs (k + 1)).discTestLoss
      ∧ (runHistories nb envs E).testGen[k]? = some (envs (k + 1)).genTestLoss
      ∧ (runHistories nb envs E).testAcc[k]? = some (envs (k + 1)).accuracy
  | 0 => by intro k hk; omega
  | E + 1 => by
    intro k hk
    obtain ⟨l1, l2, l3, l4, l5⟩ := runHistories_lengths nb envs E
    rcases Nat.lt_succ_iff_lt_or_eq.mp hk with h | h
    · obtain ⟨g1, g2, g3, g4, g5⟩ := runHistories_getElem nb envs E k h
      refine ⟨?_, ?_, ?_, ?_, ?_⟩ <;>
        simp [runHistories, epochStep, List.getElem?_append, l1, l2, l3, l4, l5, h,
          g1, g2, g3, g4, g5]
    · subst h
      refine ⟨?_, ?_, ?_, ?_, ?_⟩ <;>
        simp [runHistories, epochStep, List.getElem?_append, l1, l2, l3, l4, l5]

/-- C8: after `E` completed epochs each of the five history lists has length
exactly `E`; entries are appended in epoch order (the entry at index `k` is
epoch `k + 1`'s value), the train entries are the componentwise arithmetic
means over that epoch's per-batch losses, and a run starts from empty
histories. -/
theorem history_invariant (nb : Nat) (envs : Nat → EpochEnv) (E k : Nat) (hk : k < E) :
    ((runHistories nb envs E).trainGen.length = E
     ∧ (runHistories nb envs E).trainDisc.length = E
     ∧ (runHistories nb envs E).testGen.length = E
     ∧ (runHistories nb envs E).testDisc.length = E
     ∧ (runHistories nb envs E).testAcc.length = E)
    ∧ ((runHistories nb envs E).trainDisc[k]?
        = some (npMeanV ((List.range nb).map (envs (k + 1)).discLoss))
      ∧ (runHistories nb envs E).trainGen[k]?
        = some (npMeanV ((List.range nb).map (envs (k + 1)).genLoss))
      ∧ (runHistories nb envs E).testDisc[k]? = some (envs (k + 1)).discTestLoss
      ∧ (runHistories nb envs E).testGen[k]? = some (envs (k + 1)).genTestLoss
      ∧ (runHistories nb envs E).testAcc[k]? = some (envs (k + 1)).accuracy)
    ∧ runHistories nb envs 0 = emptyHistories
    ∧ npMeanV ((List.range nb).map (envs (k + 1)).discLoss)
        = fun m => (((List.range nb).map (envs (k + 1)).discLoss).map (fun v => v m)).sum / (nb : ℚ) := by
  refine ⟨runHistories_lengths nb envs E, runHistories_getElem nb envs E k hk, rfl, ?_⟩
  funext m
  simp [npMeanV]

/-- A constant loss vector, used to instantiate the history invariant. -/
def constLoss : LossV := fun _ => 1

/-- A constant per-epoch environment, used to instantiate the history
invariant. -/
def cEnv : EpochEnv := ⟨fun _ => constLoss, fun _ => constLoss, constLoss, constLoss, 1⟩

/-- Witness for `history_invariant`: one epoch of one batch with constant
losses. -/
theorem history_invariant_witness :
    0 < 1 ∧ (runHistories 1 (fun _ => cEnv) 1).trainGen.length = 1 :=
  ⟨Nat.one_pos, (history_invariant 1 (fun _ => cEnv) 1 0 Nat.one_pos).1.1⟩

/-- C9: because `discriminator.trainable = False` precedes the compilation of
`combined`, the combined model's compile-time snapshot excludes discriminator
weights: a `combined.train_on_batch` leaves the discriminator weights unchanged
and writes only generator weights, while a `discriminator.train_on_batch`
(compiled from the flag state before the assignment) writes only discriminator
weights. -/
theorem combined_update_preserves_disc {G D : Type} (mC mD : CompiledModel)
    (hC : finalSetup.combinedCompiled = some mC)
    (hD : finalSetup.discCompiled = some mD)
    (w : Weights G D) (newGen newGen' : G) (newDisc newDisc' : D) :
    (train_on_batch mC newGen newDisc w).disc = w.disc
    ∧ (train_on_batch mC newGen newDisc w).gen = newGen
    ∧ (train_on_batch mD newGen' newDisc' w).gen = w.gen
    ∧ (train_on_batch mD newGen' newDisc' w).disc = newDisc'
    ∧ finalSetup.discTrainable = false := by
  have hCv : finalSetup.combinedCompiled = some ⟨true, false⟩ := rfl
  have hDv : finalSetup.discCompiled = some ⟨false, true⟩ := rfl
  rw [hCv] at hC
  rw [hDv] at hD
  have hC' : mC = ⟨true, false⟩ := (Option.some.inj hC).symm
  have hD' : mD = ⟨false, true⟩ := (Option.some.inj hD).symm
  subst hC'
  subst hD'
  exact ⟨rfl, rfl, rfl, rfl, rfl⟩

/-- Witness for `combined_update_preserves_disc` on rational weight
vectors. -/
theorem combined_update_preserves_disc_witness :
    finalSetup.combinedCompiled = some ⟨true, false⟩
    ∧ finalSetup.discCompiled = some ⟨false, true⟩
    ∧ ((train_on_batch (G := ℚ) (D := ℚ) ⟨true, false⟩ 1 2 ⟨0, 0⟩).disc = (0 : ℚ)
       ∧ (train_on_batch (G := ℚ) (D := ℚ) ⟨true, false⟩ 1 2 ⟨0, 0⟩).gen = (1 : ℚ)
       ∧ (train_on_batch (G := ℚ) (D := ℚ) ⟨false, true⟩ 3 4 ⟨0, 0⟩).gen = (0 : ℚ)
       ∧ (train_on_batch (G := ℚ) (D := ℚ) ⟨false, true⟩ 3 4 ⟨0, 0⟩).disc = (4 : ℚ)
       ∧ finalSetup.discTrainable = false) :=
  ⟨rfl, rfl, combined_update_preserves_disc ⟨true, false⟩ ⟨false, true⟩ rfl rfl ⟨0, 0⟩ 1 3 2 4⟩

/-- C2: `get_data` returns the melanoma-then-outros training labels unpermuted
(the shuffled labels are bound to the dead variable `ytrain`), while the
training images are permuted and the test pair is permuted consistently by one
shared permutation; concretely, with one melanoma and one 'outros' training
file and the swap permutation, position `0` pairs the 'outros' image with
label `1`. -/
theorem get_data_label_misalignment :
    (∀ (Img : Type) (openImage : String → Img)
        (mtr mte otr ote : List String) (tp sp : List Nat),
      (get_data openImage mtr mte otr ote tp sp).y_train
          = List.replicate mtr.length (1 : ℚ) ++ List.replicate otr.length 0
      ∧ (get_data openImage mtr mte otr ote tp sp).x_train
          = npShuffle tp
              ((get_dir_data openImage ("./" ++ images_dir ++ "/train/melanoma") mtr 1).1
                ++ (get_dir_data openImage ("./" ++ images_dir ++ "/train/outros") otr 0).1)
      ∧ (get_data openImage mtr mte otr ote tp sp).x_test
          = npShuffle sp
              ((get_dir_data openImage ("./" ++ images_dir ++ "/validation/melanoma") mte 1).1
                ++ (get_dir_data openImage ("./" ++ images_dir ++ "/validation/outros") ote 0).1)
      ∧ (get_data openImage mtr mte otr ote tp sp).y_test
          = npShuffle sp
              (List.replicate mte.length (1 : ℚ) ++ List.replicate ote.length 0))
    ∧ (get_data (fun s => s) ["m.png"] [] ["o.png"] [] [1, 0] []).x_train.head?
        = some ("./" ++ images_dir ++ "/train/outros/o.png")
    ∧ (get_data (fun s => s) ["m.png"] [] ["o.png"] [] [1, 0] []).y_train.head?
        = some (1 : ℚ) := by
  refine ⟨?_, ?_, ?_⟩
  · intro Img openImage mtr mte otr ote tp sp
    refine ⟨?_, rfl, rfl, ?_⟩
    · simp [get_data, get_dir_data, List.map_replicate]
    · simp [get_data, get_dir_data, List.map_replicate]
  · simp [get_data, get_dir_data, npShuffle, images_dir]
  · simp [get_data, get_dir_data]

/-- C6: `get_dir_data` returns one image and one label per listed file, with
every label equal to `clz`; through `get_data` the melanoma directories are
read with label `1` and the 'outros' directories with label `0`
(`num_classes = 2`), so every returned test label is `1` or `0`. -/
theorem get_dir_data_labels {Img : Type} (openImage : String → Img)
    (path : String) (listdir : List String) (clz : ℚ)
    (mtr mte otr ote : List String) (tp sp : List Nat) (v : ℚ)
    (hv : v ∈ (get_data openImage mtr mte otr ote tp sp).y_test) :
    (get_dir_data openImage path listdir clz).1.length = listdir.length
    ∧ (get_dir_data openImage path listdir clz).2
        = List.replicate listdir.length clz
    ∧ num_classes = 2
    ∧ (get_data openImage mtr mte otr ote tp sp).y_train
        = List.replicate mtr.length (1 : ℚ) ++ List.replicate otr.length 0
    ∧ (v = 1 ∨ v = 0) := by
  refine ⟨?_, ?_, rfl, ?_, ?_⟩
  · simp [get_dir_data]
  · simp [get_dir_data, List.map_replicate]
  · simp [get_data, get_dir_data, List.map_replicate]
  · have hy : (get_data openImage mtr mte otr ote tp sp).y_test
        = npShuffle sp (List.replicate mte.length (1 : ℚ) ++ List.replicate ote.length 0) := by
      simp [get_data, get_dir_data, List.map_replicate]
    rw [hy] at hv
    rw [npShuffle] at hv
    obtain ⟨i, -, hi⟩ := List.mem_filterMap.mp hv
    have hmem : v ∈ List.replicate mte.length (1 : ℚ) ++ List.replicate ote.length 0 := by
      exact List.getElem?_mem hi
    rcases List.mem_append.mp hmem with h | h
    · exact Or.inl (List.eq_of_mem_replicate h)
    · exact Or.inr (List.eq_of_mem_replicate h)

/-- Witness for `get_dir_data_labels`: one melanoma and one 'outros' test
file, identity permutation. -/
theorem get_dir_data_labels_witness :
    (1 : ℚ) ∈ (get_data (fun s => s) [] ["a.png"] [] ["b.png"] [] [0, 1]).y_test
    ∧ ((get_dir_data (fun s => s) "p" ["f.png"] 1).1.length = 1
       ∧ (get_dir_data (fun s => s) "p" ["f.png"] 1).2 = List.replicate 1 (1 : ℚ)
       ∧ num_classes = 2
       ∧ (get_data (fun s => s) [] ["a.png"] [] ["b.png"] [] [0, 1]).y_train
          = List.replicate ([] : List String).length (1 : ℚ)
            ++ List.replicate ([] : List String).length 0
       ∧ ((1 : ℚ) = 1 ∨ (1 : ℚ) = 0)) :=
  ⟨by simp [get_data, get_dir_data, npShuffle], by
    have h : (1 : ℚ) ∈ (get_data (fun s => s) [] ["a.png"] [] ["b.png"] [] [0, 1]).y_test := by
      simp [get_data, get_dir_data, npShuffle]
    simpa using get_dir_data_labels (fun s => s) "p" ["f.png"] 1 [] ["a.png"] [] ["b.png"] [] [0, 1] 1 h⟩

/-- Helper: the hyperbolic tangent lies strictly between `-1` and `1`. -/
theorem tanh_bounds (x : ℝ) : -1 < Real.tanh x ∧ Real.tanh x < 1 := by
  constructor
  · have h : Real.sinh (-x) < Real.cosh (-x) := Real.sinh_lt_cosh (x := -x)
    rw [Real.sinh_neg, Real.cosh_neg] at h
    rw [Real.tanh_eq_sinh_div_cosh, neg_lt, ← neg_div, div_lt_one (Real.cosh_pos x)]
    linarith
  · rw [Real.tanh_eq_sinh_div_cosh, div_lt_one (Real.cosh_pos x)]
    exact Real.sinh_lt_cosh (x := x)

/-- C7: the generator is conditioned on the class label through the Hadamard
product of the latent vector with the label's embedding (pairs agreeing on the
product generate the same image), the upsampling chain is
`12 → 16 → 32 → 64 → 128`, and the output is a `(128, 128, 3)` tensor (carried
by its type) with every value strictly inside `(-1, 1)` from the final `tanh`
activation. -/
theorem generator_conditional_tanh_range {latent_size : Nat}
    (w : GenWeights latent_size) (z z' : Vec latent_size)
    (L L' : Fin num_classes) (i j : Fin 128) (c : Fin 3)
    (hz : ∀ t, z t * w.emb L t = z' t * w.emb L' t) :
    (convTransOutDim 12 5 1 false = 16
     ∧ convTransOutDim 16 5 2 true = 32
     ∧ convTransOutDim 32 5 2 true = 64
     ∧ convTransOutDim 64 5 2 true = 128)
    ∧ build_generator w z L = build_generator w z' L'
    ∧ (-1 < build_generator w z L i j c ∧ build_generator w z L i j c < 1) := by
  refine ⟨⟨rfl, rfl, rfl, rfl⟩, ?_, ?_⟩
  · rw [build_generator, build_generator]
    have hfun : (fun t => z t * w.emb L t) = fun t => z' t * w.emb L' t :=
      funext hz
    rw [hfun]
  · have hform : build_generator w z L i j c
        = Real.tanh (convTransPre 5 2 1 w.k4 w.b4
            (batchNorm w.bn3g w.bn3b w.bn3m w.bn3v w.eps
              (conv2DTranspose 5 2 1 w.k3 w.b3 relu
                (batchNorm w.bn2g w.bn2b w.bn2m w.bn2v w.eps
                  (conv2DTranspose 5 2 1 w.k2 w.b2 relu
                    (batchNorm w.bn1g w.bn1b w.bn1m w.bn1v w.eps
                      (conv2DTranspose 5 1 0 w.k1 w.b1 relu
                        (reshape12 (dense w.denseW w.denseB relu
                          (fun t => z t * w.emb L t)))))))))
            i j c) := rfl
    rw [hform]
    exact tanh_bounds _

/-- All-zero generator weights at latent size `1`, used to instantiate the
generator theorem. -/
def zeroGenWeights : GenWeights 1 :=
  ⟨fun _ _ => 0, fun _ _ => 0, fun _ => 0,
   fun _ _ _ _ => 0, fun _ => 0, fun _ => 0, fun _ => 0, fun _ => 0, fun _ => 0,
   fun _ _ _ _ => 0, fun _ => 0, fun _ => 0, fun _ => 0, fun _ => 0, fun _ => 0,
   fun _ _ _ _ => 0, fun _ => 0, fun _ => 0, fun _ => 0, fun _ => 0, fun _ => 0,
   fun _ _ _ _ => 0, fun _ => 0, 0⟩

/-- The class label `0`, as an index into the embedding table. -/
def class0 : Fin num_classes := ⟨0, by decide⟩

/-- Witness for `generator_conditional_tanh_range` at the zero weights, zero
latent vector and class label `0`. -/
theorem generator_conditional_tanh_range_witness :
    (∀ t : Fin 1, (fun _ : Fin 1 => (0 : ℝ)) t * zeroGenWeights.emb class0 t
        = (fun _ : Fin 1 => (0 : ℝ)) t * zeroGenWeights.emb class0 t)
    ∧ ((convTransOutDim 12 5 1 false = 16
        ∧ convTransOutDim 16 5 2 true = 32
        ∧ convTransOutDim 32 5 2 true = 64
        ∧ convTransOutDim 64 5 2 true = 128)
       ∧ build_generator zeroGenWeights (fun _ => 0) class0
          = build_generator zeroGenWeights (fun _ => 0) class0
       ∧ (-1 < build_generator zeroGenWeights (fun _ => 0) class0 0 0 0
          ∧ build_generator zeroGenWeights (fun _ => 0) class0 0 0 0 < 1)) :=
  ⟨fun _ => rfl,
   generator_conditional_tanh_range zeroGenWeights (fun _ => 0) (fun _ => 0)
     class0 class0 0 0 0 (fun _ => rfl)⟩

end Acgan
